import Mathlib

/-!
Verification development for the lamela browser-extension relay gateway.

The gateway (TypeScript sources: `SessionManager`, `CommandHandler`,
`PacketHandler`, `WebSocketServer`, `types/packets`) tracks connected
browser-extension sessions in a JavaScript `Map` keyed by access code,
dispatches scraping commands to them, and correlates asynchronous command
results back to pending commands.

This file gives a shallow embedding of that code and proves the claims of
the specification against it.  Modelling conventions:

* A JavaScript `Map` is an association list with insertion order preserved;
  `Map.set` on a present key replaces the entry in place, otherwise appends.
* Channels (`ws` handles) are natural numbers; sending is recorded as an
  emitted `Act` rather than performed (transport is an external
  collaborator of the gateway).  Console logging is not modelled.
* `setTimeout` handles are natural numbers drawn from a counter; the set of
  armed (not yet cancelled or fired) session-liveness timers is tracked so
  that cancellation can be stated.  The command-expiry callback is modelled
  as the explicit step `commandExpire`.
* `uuidv4()` is modelled as a fresh-token generator from a counter
  (`uuidOf`); distinctness is what matters, not randomness.
* Timestamps (`Date.now()`) come from the environment as a natural number.
* Database (prisma) calls are environment functions that may fail
  (`Except String`), mirroring that persistence is best effort.
* JavaScript runtime values flowing through command parameters are
  modelled by `JsVal` (undefined, boolean, number, string); a number keeps
  the source text it was coerced from, since no proved property depends on
  float arithmetic.
-/

namespace Lamela

/-! ## Association-list model of a JavaScript Map -/

def keys {κ ν : Type} (m : List (κ × ν)) : List κ := m.map Prod.fst

def containsKey {κ ν : Type} [DecidableEq κ] (m : List (κ × ν)) (k : κ) : Bool :=
  m.any (fun e => decide (e.1 = k))

def mapGet {κ ν : Type} [DecidableEq κ] (m : List (κ × ν)) (k : κ) : Option ν :=
  (m.find? (fun e => decide (e.1 = k))).map Prod.snd

/-- JavaScript `Map.set` / object property assignment: replace in place when
the key is present, append otherwise. -/
def mapSet {κ ν : Type} [DecidableEq κ] (m : List (κ × ν)) (k : κ) (v : ν) :
    List (κ × ν) :=
  if containsKey m k then m.map (fun e => if e.1 = k then (k, v) else e)
  else m ++ [(k, v)]

def mapDelete {κ ν : Type} [DecidableEq κ] (m : List (κ × ν)) (k : κ) :
    List (κ × ν) :=
  m.filter (fun e => decide (¬ e.1 = k))

theorem containsKey_iff_mem_keys {κ ν : Type} [DecidableEq κ]
    (m : List (κ × ν)) (k : κ) : containsKey m k = true ↔ k ∈ keys m := by
  simp [containsKey, keys, List.any_eq_true, List.mem_map]

theorem keys_mapSet_present {κ ν : Type} [DecidableEq κ]
    (m : List (κ × ν)) (k : κ) (v : ν) (h : containsKey m k = true) :
    keys (mapSet m k v) = keys m := by
  simp only [mapSet, h, if_true, keys, List.map_map]
  apply List.map_congr_left
  intro e _
  by_cases hk : e.1 = k <;> simp [hk]

theorem keys_mapSet_absent {κ ν : Type} [DecidableEq κ]
    (m : List (κ × ν)) (k : κ) (v : ν) (h : containsKey m k = false) :
    keys (mapSet m k v) = keys m ++ [k] := by
  simp [mapSet, h, keys]

theorem nodupKeys_mapSet {κ ν : Type} [DecidableEq κ]
    (m : List (κ × ν)) (k : κ) (v : ν) (h : (keys m).Nodup) :
    (keys (mapSet m k v)).Nodup := by
  cases hc : containsKey m k
  · rw [keys_mapSet_absent m k v hc]
    have hk : k ∉ keys m := by
      intro hmem
      rw [← containsKey_iff_mem_keys] at hmem
      rw [hc] at hmem; cases hmem
    simp [List.nodup_append, h, hk]
  · rw [keys_mapSet_present m k v hc]; exact h

theorem nodupKeys_mapDelete {κ ν : Type} [DecidableEq κ]
    (m : List (κ × ν)) (k : κ) (h : (keys m).Nodup) :
    (keys (mapDelete m k)).Nodup := by
  have hsub : List.Sublist (keys (mapDelete m k)) (keys m) :=
    List.Sublist.map Prod.fst (List.filter_sublist m)
  exact h.sublist hsub

theorem mapGet_eq_none_of_not_contains {κ ν : Type} [DecidableEq κ]
    (m : List (κ × ν)) (k : κ) (h : containsKey m k = false) :
    mapGet m k = none := by
  induction m with
  | nil => rfl
  | cons e rest ih =>
    simp only [containsKey, List.any_cons, Bool.or_eq_false_iff] at h
    simp only [mapGet, List.find?]
    rw [h.1]
    exact ih h.2

theorem mapGet_mapSet_self {κ ν : Type} [DecidableEq κ]
    (m : List (κ × ν)) (k : κ) (v : ν) :
    mapGet (mapSet m k v) k = some v := by
  by_cases hc : containsKey m k = true
  · simp only [mapSet, hc, if_true]
    induction m with
    | nil => simp [containsKey] at hc
    | cons e rest ih =>
      by_cases hk : e.1 = k
      · simp [mapGet, List.find?, hk]
      · simp only [List.map_cons, if_neg hk]
        simp only [containsKey, List.any_cons, decide_eq_true_eq, hk,
          false_or] at hc
        simp only [mapGet, List.find?, decide_eq_true_eq, if_neg hk]
        rw [decide_eq_false hk]
        exact ih hc
  · rw [Bool.not_eq_true] at hc
    simp only [mapSet, hc, Bool.false_eq_true, if_false]
    induction m with
    | nil => simp [mapGet, List.find?]
    | cons e rest ih =>
      simp only [containsKey, List.any_cons, Bool.or_eq_false_iff] at hc
      simp only [mapGet, List.cons_append, List.find?]
      rw [hc.1]
      exact ih hc.2

theorem mem_of_mapGet_eq_some {κ ν : Type} [DecidableEq κ]
    (m : List (κ × ν)) (k : κ) (v : ν) (h : mapGet m k = some v) :
    (k, v) ∈ m := by
  induction m with
  | nil => simp [mapGet] at h
  | cons e rest ih =>
    simp only [mapGet, List.find?] at h
    by_cases hk : e.1 = k
    · rw [decide_eq_true hk] at h
      simp only [Option.map_some] at h
      have : e = (k, v) := by
        cases e with
        | mk ek ev =>
          cases hk
          cases h
          rfl
      rw [this] at *
      exact List.mem_cons_self _ _
    · rw [decide_eq_false hk] at h
      right
      exact ih h

theorem mapGet_of_mem_nodup {κ ν : Type} [DecidableEq κ]
    (m : List (κ × ν)) (k : κ) (v : ν)
    (hn : (keys m).Nodup) (h : (k, v) ∈ m) :
    mapGet m k = some v := by
  induction m with
  | nil => cases h
  | cons e rest ih =>
    simp only [keys, List.map_cons, List.nodup_cons] at hn
    cases h with
    | head => simp [mapGet, List.find?]
    | tail _ hmem =>
      have hk : e.1 ≠ k := by
        intro he
        exact hn.1 (he ▸ (List.mem_map.mpr ⟨(k, v), hmem, rfl⟩))
      simp only [mapGet, List.find?]
      rw [decide_eq_false hk]
      exact ih hn.2 hmem

/-! ## JavaScript runtime values and `Number()` coercion

`CommandHandler.processMainAppCommand` coerces each parameter value with
`value === 'true'`, `value === 'false'`, `!isNaN(Number(value))`
(lines 103-111).  `jsIsNumeric` models the `!isNaN(Number(value))` test on
strings: JavaScript trims whitespace, accepts the empty string (0), signed
decimal literals with optional fraction and exponent, `Infinity`, and
unsigned radix literals `0x`/`0o`/`0b`. -/

inductive JsVal where
  | jsUndefined
  | bool (b : Bool)
  | num (source : String)
  | str (s : String)
deriving DecidableEq

def jsWhitespace (c : Char) : Bool :=
  c = ' ' ∨ c = '\t' ∨ c = '\n' ∨ c = '\r' ∨ c = '\x0b' ∨ c = '\x0c' ∨
  c = ' ' ∨ c = '﻿'

def jsTrim (l : List Char) : List Char :=
  ((l.dropWhile jsWhitespace).reverse.dropWhile jsWhitespace).reverse

def signedDigits (l : List Char) : Bool :=
  match l with
  | '+' :: r => !r.isEmpty && r.all Char.isDigit
  | '-' :: r => !r.isEmpty && r.all Char.isDigit
  | r => !r.isEmpty && r.all Char.isDigit

/-- Exponent suffix of a decimal literal: empty, or `e`/`E` followed by an
optionally signed digit string. -/
def expTail (l : List Char) : Bool :=
  match l with
  | [] => true
  | 'e' :: r => signedDigits r
  | 'E' :: r => signedDigits r
  | _ => false

/-- Unsigned decimal literal: digits, optional `.` and fraction digits (at
least one digit on one side of the point), optional exponent. -/
def decimalLit (l : List Char) : Bool :=
  let (ip, r1) := l.span Char.isDigit
  match r1 with
  | '.' :: r2 =>
    let (fp, r3) := r2.span Char.isDigit
    (!ip.isEmpty || !fp.isEmpty) && expTail r3
  | _ => !ip.isEmpty && expTail r1

def isHexDigitChar (c : Char) : Bool :=
  c.isDigit || ('a' ≤ c && c ≤ 'f') || ('A' ≤ c && c ≤ 'F')

def isOctDigitChar (c : Char) : Bool := '0' ≤ c && c ≤ '7'

def isBinDigitChar (c : Char) : Bool := c = '0' || c = '1'

/-- Unsigned radix literal `0x…`, `0o…`, `0b…` (sign is not permitted before
these in `Number()`). -/
def radixLit (l : List Char) : Bool :=
  match l with
  | '0' :: x :: r =>
    ((x = 'x' || x = 'X') && !r.isEmpty && r.all isHexDigitChar) ||
    ((x = 'o' || x = 'O') && !r.isEmpty && r.all isOctDigitChar) ||
    ((x = 'b' || x = 'B') && !r.isEmpty && r.all isBinDigitChar)
  | _ => false

def unsignedNumeric (l : List Char) : Bool :=
  decide (l = "Infinity".data) || decimalLit l

/-- Model of the JavaScript test `!isNaN(Number(value))` on a string. -/
def jsIsNumeric (s : String) : Bool :=
  let t := jsTrim s.data
  if t.isEmpty then true
  else
    match t with
    | '+' :: r => unsignedNumeric r
    | '-' :: r => unsignedNumeric r
    | _ => unsignedNumeric t || radixLit t

/-- Does `Number(s)` evaluate to (positive or negative) zero?  Only consulted
for strings that already passed `jsIsNumeric`; used for the JavaScript
truthiness test on coerced parameter values. -/
def jsNumIsZero (s : String) : Bool :=
  let t := jsTrim s.data
  if t.isEmpty then true
  else
    let core := match t with
      | '+' :: r => r
      | '-' :: r => r
      | r => r
    match core with
    | '0' :: x :: r =>
      if x = 'x' || x = 'X' || x = 'o' || x = 'O' || x = 'b' || x = 'B' then
        r.all (· = '0')
      else
        mantissaZero core
    | _ => mantissaZero core
where
  mantissaZero (l : List Char) : Bool :=
    let (ip, r1) := l.span Char.isDigit
    let fp := match r1 with
      | '.' :: r2 => (r2.span Char.isDigit).1
      | _ => []
    ip.all (· = '0') && fp.all (· = '0')

/-- JavaScript truthiness of the runtime values a coerced parameter can take
(`if (targetBrowser)` in `processMainAppCommand`). -/
def jsTruthy : JsVal → Bool
  | .jsUndefined => false
  | .bool b => b
  | .num s => !jsNumIsZero s
  | .str s => decide (s ≠ "")

/-! ## Splitting (JavaScript `String.prototype.split` with one-char separator) -/

def splitOnChar (sep : Char) : List Char → List (List Char)
  | [] => [[]]
  | c :: cs =>
    if c = sep then [] :: splitOnChar sep cs
    else
      match splitOnChar sep cs with
      | g :: gs => (c :: g) :: gs
      | [] => [[c]]

theorem splitOnChar_ne_nil (sep : Char) (l : List Char) :
    splitOnChar sep l ≠ [] := by
  cases l with
  | nil => simp [splitOnChar]
  | cons c cs =>
    simp only [splitOnChar]
    by_cases h : c = sep
    · simp [h]
    · rw [if_neg h]
      cases splitOnChar sep cs <;> simp

theorem splitOnChar_of_not_mem (sep : Char) (l : List Char)
    (h : sep ∉ l) : splitOnChar sep l = [l] := by
  induction l with
  | nil => rfl
  | cons c cs ih =>
    simp only [List.mem_cons, not_or] at h
    simp only [splitOnChar]
    rw [if_neg (fun he => h.1 he.symm)]
    rw [ih h.2]

theorem not_mem_of_mem_splitOnChar (sep : Char) (l piece : List Char)
    (h : piece ∈ splitOnChar sep l) : sep ∉ piece := by
  induction l generalizing piece with
  | nil =>
    simp only [splitOnChar, List.mem_singleton] at h
    simp [h]
  | cons c cs ih =>
    simp only [splitOnChar] at h
    by_cases hc : c = sep
    · rw [if_pos hc] at h
      cases h with
      | head => simp
      | tail _ ht => exact ih piece ht
    · rw [if_neg hc] at h
      cases hsp : splitOnChar sep cs with
      | nil => exact absurd hsp (splitOnChar_ne_nil sep cs)
      | cons g gs =>
        rw [hsp] at h
        cases h with
        | head =>
          intro hmem
          cases hmem with
          | head => exact hc rfl
          | tail _ hg => exact ih g (hsp ▸ List.mem_cons_self g gs) hg
        | tail _ ht => exact ih piece (hsp ▸ List.mem_cons_of_mem g ht)

/-! ## JSON values and `JSON.parse`

The server parses inbound text with `JSON.parse` in
`CommandHandler.processExtensionMessage` and in the `WebSocketServer`
message handler.  `jsonParse` is a standard recursive-descent JSON parser
returning `none` exactly when `JSON.parse` would throw.  (The `\u` escape
inside strings is kept as the literal next character; no proved property
inspects parsed string contents.) -/

inductive Json where
  | null
  | bool (b : Bool)
  | num (source : String)
  | str (s : String)
  | arr (elems : List Json)
  | obj (fields : List (String × Json))

def isJsonWs (c : Char) : Bool :=
  c = ' ' ∨ c = '\t' ∨ c = '\n' ∨ c = '\r'

def skipWs : List Char → List Char
  | [] => []
  | c :: cs => if isJsonWs c then skipWs cs else c :: cs

def escapeChar (c : Char) : Char :=
  if c = 'n' then '\n'
  else if c = 't' then '\t'
  else if c = 'r' then '\r'
  else if c = 'b' then '\x08'
  else if c = 'f' then '\x0c'
  else c

/-- Parse the remainder of a JSON string literal (the opening quote already
consumed); returns the decoded characters and the rest of the input. -/
def parseStringChars : List Char → Option (List Char × List Char)
  | [] => none
  | c :: rest =>
    if c = '"' then some ([], rest)
    else if c = '\\' then
      match rest with
      | [] => none
      | e :: rest2 =>
        (parseStringChars rest2).map (fun p => (escapeChar e :: p.1, p.2))
    else (parseStringChars rest).map (fun p => (c :: p.1, p.2))

/-- Parse a JSON number; returns its source text and the rest of the input. -/
def parseJsonNumber (l : List Char) : Option (List Char × List Char) :=
  let (sign, r0) := match l with
    | '-' :: r => (['-'], r)
    | r => (([] : List Char), r)
  let (ip, r1) := r0.span Char.isDigit
  if ip.isEmpty then none
  else
    let (fp, r2) := match r1 with
      | '.' :: rf =>
        let (d, r) := rf.span Char.isDigit
        if d.isEmpty then (none, r1) else (some ('.' :: d), r)
      | _ => (none, r1)
    match fp with
    | none =>
      match r1 with
      | '.' :: _ => none
      | _ =>
        match parseJsonExp r1 with
        | none => none
        | some (ep, r3) => some (sign ++ ip ++ ep, r3)
    | some fdigits =>
      match parseJsonExp r2 with
      | none => none
      | some (ep, r3) => some (sign ++ ip ++ fdigits ++ ep, r3)
where
  parseJsonExp (l : List Char) : Option (List Char × List Char) :=
    match l with
    | 'e' :: r => parseJsonExpSigned 'e' r
    | 'E' :: r => parseJsonExpSigned 'E' r
    | r => some ([], r)
  parseJsonExpSigned (e : Char) (l : List Char) :
      Option (List Char × List Char) :=
    let (sign, r0) := match l with
      | '+' :: r => (['+'], r)
      | '-' :: r => (['-'], r)
      | r => (([] : List Char), r)
    let (d, r1) := r0.span Char.isDigit
    if d.isEmpty then none else some (e :: sign ++ d, r1)

mutual

def parseJsonValue : Nat → List Char → Option (Json × List Char)
  | 0, _ => none
  | fuel + 1, input =>
    match skipWs input with
    | [] => none
    | c :: rest =>
      if c = '{' then parseJsonMembers fuel rest [] true
      else if c = '[' then parseJsonElements fuel rest [] true
      else if c = '"' then
        (parseStringChars rest).map (fun p => (Json.str ⟨p.1⟩, p.2))
      else if "true".data.isPrefixOf (c :: rest) then
        some (Json.bool true, (c :: rest).drop 4)
      else if "false".data.isPrefixOf (c :: rest) then
        some (Json.bool false, (c :: rest).drop 5)
      else if "null".data.isPrefixOf (c :: rest) then
        some (Json.null, (c :: rest).drop 4)
      else
        (parseJsonNumber (c :: rest)).map (fun p => (Json.num ⟨p.1⟩, p.2))

def parseJsonElements (fuel : Nat) (input : List Char) (acc : List Json)
    (first : Bool) : Option (Json × List Char) :=
  match fuel with
  | 0 => none
  | fuel + 1 =>
    match skipWs input with
    | ']' :: rest =>
      if first then some (Json.arr acc.reverse, rest) else none
    | other =>
      match parseJsonValue fuel other with
      | none => none
      | some (v, rest) =>
        match skipWs rest with
        | ',' :: rest2 => parseJsonElements fuel rest2 (v :: acc) false
        | ']' :: rest2 => some (Json.arr (v :: acc).reverse, rest2)
        | _ => none

def parseJsonMembers (fuel : Nat) (input : List Char)
    (acc : List (String × Json)) (first : Bool) :
    Option (Json × List Char) :=
  match fuel with
  | 0 => none
  | fuel + 1 =>
    match skipWs input with
    | '}' :: rest =>
      if first then some (Json.obj acc.reverse, rest) else none
    | '"' :: rest =>
      match parseStringChars rest with
      | none => none
      | some (key, rest1) =>
        match skipWs rest1 with
        | ':' :: rest2 =>
          match parseJsonValue fuel rest2 with
          | none => none
          | some (v, rest3) =>
            match skipWs rest3 with
            | ',' :: rest4 =>
              parseJsonMembers fuel rest4 ((⟨key⟩, v) :: acc) false
            | '}' :: rest4 => some (Json.obj ((⟨key⟩, v) :: acc).reverse, rest4)
            | _ => none
        | _ => none
    | _ => none

end

/-- Model of `JSON.parse`: `none` when the JavaScript call would throw. -/
def jsonParse (s : String) : Option Json :=
  match parseJsonValue (s.data.length + 1) s.data with
  | none => none
  | some (j, rest) => if (skipWs rest).isEmpty then some j else none

/-- Property lookup on a parsed JSON value, as JavaScript member access on
the parse result: `undefined` (`none`) unless the value is an object with
the field (duplicate keys: `JSON.parse` keeps the last). -/
def jsonField (j : Json) (k : String) : Option Json :=
  match j with
  | .obj fields => ((fields.reverse).find? (fun e => decide (e.1 = k))).map Prod.snd
  | _ => none

def asStrOpt (j : Option Json) : Option String :=
  match j with
  | some (.str s) => some s
  | _ => none

/-- JavaScript truthiness of an optional JSON field value (used for the
`success` flag, which the handler only logs). -/
def jsonTruthy (j : Option Json) : Bool :=
  match j with
  | none => false
  | some .null => false
  | some (.bool b) => b
  | some (.num s) => !jsNumIsZero s
  | some (.str s) => decide (s ≠ "")
  | some (.arr _) => true
  | some (.obj _) => true

/-- A string whose first character is `m` is not valid JSON, so every
`main:`-prefixed controller command makes `JSON.parse` throw. -/
theorem parseJsonValue_m (fuel : Nat) (l : List Char) :
    parseJsonValue (fuel + 1) ('m' :: l) = none := rfl

theorem jsonParse_main (l : List Char) :
    jsonParse ⟨'m' :: l⟩ = none := by
  show (match parseJsonValue (('m' :: l).length + 1) ('m' :: l) with
    | none => none
    | some (j, rest) => if (skipWs rest).isEmpty then some j else none) = none
  rw [List.length_cons]
  rw [parseJsonValue_m (l.length + 1) l]

/-! ## Gateway data model

`BrowserSession` is `SessionManager`'s session record.  The access code
arrives as the `accessCode` field of a parsed JSON packet and is therefore
a string or, when the field is missing, JavaScript `undefined`; both are
legal `Map` keys, modelled as `Option String`.  `GState` bundles the two
pieces of mutable state of the gateway: the session registry
(`SessionManager.activeSessions` plus its liveness timers) and the
command correlator (`CommandHandler.pendingCommands` plus its id source). -/

structure BrowserSession where
  accessCode : Option String
  userAgent : Option String
  lastPing : Nat
  ws : Nat
  timeoutId : Nat
deriving DecidableEq

/-- Entry of `CommandHandler.pendingCommands` (`{ accessCode, timestamp }`).
The access code recorded for a pending command is whatever runtime value
was passed to `sendCommandToBrowser` (a registry key, or the coerced
`browser` parameter). -/
structure PendingCommand where
  accessCode : JsVal
  timestamp : Nat
deriving DecidableEq

structure GState where
  activeSessions : List (Option String × BrowserSession)
  /-- Armed (scheduled, not yet cancelled or fired) session-liveness
  `setTimeout` handles. -/
  timers : List Nat
  /-- Source of fresh `setTimeout` handles. -/
  nextTimer : Nat
  pendingCommands : List (String × PendingCommand)
  /-- Source of fresh `uuidv4()` command ids. -/
  nextCommandId : Nat
deriving DecidableEq

def initState : GState := ⟨[], [], 0, [], 0⟩

/-- Model of `uuidv4()`: the n-th generated id.  Only freshness matters;
the token is a string of n copies of `u`, so its length determines n. -/
def uuidOf (n : Nat) : String := ⟨List.replicate n 'u'⟩

/-- The runtime value of a registry key, as it flows back into
`sendCommandToBrowser` during a broadcast. -/
def jsValOfKey : Option String → JsVal
  | some s => .str s
  | none => .jsUndefined

/-- External collaborators: the clock and the prisma persistence store
(whose calls may fail). -/
structure Env where
  now : Nat
  prismaFindBrowser : Option String → Except String Bool
  prismaUpdateBrowser : Option String → Option String → Except String Unit
  prismaCreateBrowser : Option String → Option String → Except String Unit
  prismaMarkOffline : Option String → Except String Unit

/-- Structured messages the gateway sends (the payloads it passes to
`JSON.stringify` before `ws.send`). -/
inductive OutMsg where
  | pong (accessCode : Option String) (timestamp : Option Json)
      (serverTime : Nat)
  | initOk (accessCode : Option String) (serverTime : Nat)
  | exitOk (serverTime : Nat)
  | error (accessCode : Option String) (code : String) (message : String)
  | command (accessCode : JsVal) (commandId : String) (command : String)
      (params : List (String × JsVal)) (timestamp : Nat)
  | browserList (browsers : List (Option String × Option String × Nat))
      (timestamp : Nat)

/-- Observable channel actions.  `close` is included so that "never
terminates the connection" is expressible; no handler emits it. -/
inductive Act where
  | sendText (ch : Nat) (text : String)
  | sendJson (ch : Nat) (msg : OutMsg)
  | close (ch : Nat)

def Act.isClose : Act → Bool
  | .close _ => true
  | _ => false

/-! ## SessionManager (`registerSession`, `updateSessionPing`,
`removeSession`, `getAllSessions`) -/

/-- `SessionManager.registerSession` (lines 359-401): cancel the prior
liveness deadline for the code if present, arm a fresh one, build the new
session record and `Map.set` it.  (The `ws.on` handler attachments are
transport wiring and are not registry state.)  Returns the new state and
the created session, as the method returns the session. -/
def registerSession (s : GState) (accessCode : Option String)
    (userAgent : Option String) (ws : Nat) (now : Nat) :
    GState × BrowserSession :=
  let timers1 := match mapGet s.activeSessions accessCode with
    | some old => s.timers.filter (fun t => decide (t ≠ old.timeoutId))
    | none => s.timers
  let timeoutId := s.nextTimer
  let session : BrowserSession := ⟨accessCode, userAgent, now, ws, timeoutId⟩
  ({ s with
      activeSessions := mapSet s.activeSessions accessCode session,
      timers := timers1 ++ [timeoutId],
      nextTimer := s.nextTimer + 1 }, session)

/-- `SessionManager.updateSessionPing` (lines 408-424): refresh `lastPing`,
cancel the old deadline, arm a fresh one; `false` if the code is unknown. -/
def updateSessionPing (s : GState) (accessCode : Option String) (now : Nat) :
    GState × Bool :=
  match mapGet s.activeSessions accessCode with
  | none => (s, false)
  | some session =>
    let session1 := { session with lastPing := now, timeoutId := s.nextTimer }
    ({ s with
        activeSessions := mapSet s.activeSessions accessCode session1,
        timers := (s.timers.filter (fun t => decide (t ≠ session.timeoutId)))
          ++ [s.nextTimer],
        nextTimer := s.nextTimer + 1 }, true)

/-- `SessionManager.markSessionOffline` (lines 470-487): best-effort prisma
update (failure is swallowed), then delete from the live map. -/
def markSessionOffline (env : Env) (s : GState)
    (accessCode : Option String) : GState :=
  let _ := env.prismaMarkOffline accessCode
  { s with activeSessions := mapDelete s.activeSessions accessCode }

/-- `SessionManager.removeSession` (lines 430-438): cancel the deadline and
delete when present, then mark offline (idempotent). -/
def removeSession (env : Env) (s : GState)
    (accessCode : Option String) : GState :=
  let s1 := match mapGet s.activeSessions accessCode with
    | some session =>
      { s with
          timers := s.timers.filter (fun t => decide (t ≠ session.timeoutId)),
          activeSessions := mapDelete s.activeSessions accessCode }
    | none => s
  markSessionOffline env s1 accessCode

/-- The registry operations named by the specification invariant:
register (reconnection included), touch, evict. -/
inductive SMOp where
  | register (accessCode : Option String) (userAgent : Option String)
      (ws : Nat) (now : Nat)
  | touch (accessCode : Option String) (now : Nat)
  | evict (accessCode : Option String)

def applySMOp (env : Env) (s : GState) : SMOp → GState
  | .register code ua ws now => (registerSession s code ua ws now).1
  | .touch code now => (updateSessionPing s code now).1
  | .evict code => removeSession env s code

def runSMOps (env : Env) (ops : List SMOp) : GState :=
  ops.foldl (applySMOp env) initState

/-! ## CommandHandler -/

/-- `Object.values(CommandType)` from `types/packets.ts` (lines 21-50). -/
def commandTypeValues : List String :=
  ["goto", "reload", "back", "forward",
   "click", "type", "select", "hover", "focus",
   "screenshot", "pdf", "getText", "getHtml", "getAttribute", "evaluate",
   "waitForSelector", "waitForNavigation", "waitForTimeout",
   "exit"]

/-- Character-list prefix test (JavaScript `String.prototype.startsWith`). -/
def listIsPrefix : List Char → List Char → Bool
  | [], _ => true
  | _ :: _, [] => false
  | a :: as, b :: bs => a == b && listIsPrefix as bs

def jsStartsWith (s pre : String) : Bool := listIsPrefix pre.data s.data

/-- Value coercion of `processMainAppCommand` (lines 102-111): literal
`true`/`false`, then numeric, then string. -/
def coerceValue (value : String) : JsVal :=
  if value = "true" then .bool true
  else if value = "false" then .bool false
  else if jsIsNumeric value then .num value
  else .str value

/-- One iteration of the parameter loop (lines 98-113):
`const [key, value] = paramPart.split('=')` takes the first two pieces;
the entry is stored only when both are truthy (non-empty) strings. -/
def paramStep (params : List (String × JsVal)) (paramPart : List Char) :
    List (String × JsVal) :=
  let kv := splitOnChar '=' paramPart
  let key := kv.headD []
  match kv[1]? with
  | none => params
  | some value =>
    if key.isEmpty || value.isEmpty then params
    else mapSet params (⟨key⟩ : String) (coerceValue ⟨value⟩)

def parseParams (parts : List (List Char)) : List (String × JsVal) :=
  parts.foldl paramStep []

/-- `SessionManager.getSession` as invoked from `sendCommandToBrowser`: the
argument is a runtime value (a registry key during a broadcast, or the
coerced `browser` parameter), compared against the `Map` keys. -/
def getSessionByVal (m : List (Option String × BrowserSession)) (v : JsVal) :
    Option BrowserSession :=
  (m.find? (fun e => decide (jsValOfKey e.1 = v))).map Prod.snd

/-- `CommandHandler.sendCommandToBrowser` (lines 138-181): unknown target is
a routing failure (nothing sent, nothing tracked); otherwise allocate a
fresh command id, record the pending command, arm its expiry (modelled by
`commandExpire` below) and send the command packet on the session's
channel. -/
def sendCommandToBrowser (env : Env) (s : GState) (accessCode : JsVal)
    (command : String) (params : List (String × JsVal)) :
    GState × List Act :=
  match getSessionByVal s.activeSessions accessCode with
  | none => (s, [])
  | some session =>
    let commandId := uuidOf s.nextCommandId
    ({ s with
        pendingCommands :=
          mapSet s.pendingCommands commandId ⟨accessCode, env.now⟩,
        nextCommandId := s.nextCommandId + 1 },
     [.sendJson session.ws
        (.command accessCode commandId command params env.now)])

/-- The fan-out loop shared by `broadcastCommand` (lines 188-194) and
`broadcastExitCommand` (lines 199-205): iterate the registry entries and
send to each.  `sendCommandToBrowser` never touches `activeSessions`, so
iterating the live map is sound. -/
def broadcastFold (env : Env) (s : GState) (command : String)
    (params : List (String × JsVal)) : GState × List Act :=
  s.activeSessions.foldl
    (fun acc e =>
      let r := sendCommandToBrowser env acc.1 (jsValOfKey e.1) command params
      (r.1, acc.2 ++ r.2))
    (s, [])

def broadcastCommand (env : Env) (s : GState) (command : String)
    (params : List (String × JsVal)) : GState × List Act :=
  broadcastFold env s command params

/-- `CommandHandler.broadcastExitCommand`: send `CommandType.EXIT` with
empty parameters to every registered session. -/
def broadcastExitCommand (env : Env) (s : GState) : GState × List Act :=
  broadcastFold env s "exit" []

/-- `CommandHandler.sendBrowserList` (lines 237-258) with
`getMainAppWebSocket` (lines 264-274): the list goes to the first
session's channel, if any. -/
def sendBrowserList (s : GState) (now : Nat) : List Act :=
  let browsers := s.activeSessions.map (fun e => (e.1, e.2.userAgent, e.2.lastPing))
  match s.activeSessions with
  | [] => []
  | e :: _ => [.sendJson e.2.ws (.browserList browsers now)]

/-- The fields of a `COMMAND_RESULT` packet that `handleCommandResult`
destructures.  At runtime each field may be absent (`none`). -/
structure CommandResultPacket where
  accessCode : Option String
  commandId : Option String
  success : Bool
  result : Option Json
  error : Option String

/-- `Map.has`/`Map.get` keyed by the runtime `commandId` value: an absent
field (undefined) matches no pending entry. -/
def pendingLookup (m : List (String × PendingCommand))
    (commandId : Option String) : Option PendingCommand :=
  match commandId with
  | none => none
  | some c => mapGet m c

def pendingDelete (m : List (String × PendingCommand))
    (commandId : Option String) : List (String × PendingCommand) :=
  match commandId with
  | none => m
  | some c => mapDelete m c

/-- `CommandHandler.handleCommandResult` (lines 212-232): a result whose id
is not pending is dropped with a warning (no reply, no state change);
otherwise the entry is removed and the outcome is logged. -/
def handleCommandResult (s : GState) (packet : CommandResultPacket) :
    GState × List Act :=
  match pendingLookup s.pendingCommands packet.commandId with
  | none => (s, [])
  | some _ =>
    ({ s with pendingCommands := pendingDelete s.pendingCommands packet.commandId },
     [])

/-- The command-expiry `setTimeout` callback armed by
`sendCommandToBrowser` (lines 171-176): delete the entry if it is still
pending, otherwise do nothing. -/
def commandExpire (s : GState) (commandId : String) : GState :=
  match mapGet s.pendingCommands commandId with
  | none => s
  | some _ =>
    { s with pendingCommands := mapDelete s.pendingCommands commandId }

/-- `CommandHandler.processMainAppCommand` (lines 62-130). -/
def processMainAppCommand (env : Env) (s : GState) (message : String) :
    GState × List Act × Bool :=
  if !jsStartsWith message "main:" then (s, [], false)
  else
    let commandString : String := ⟨message.data.drop 5⟩
    if commandString = "exit" then
      let r := broadcastExitCommand env s
      (r.1, r.2, true)
    else if commandString = "listBrowsers" then
      (s, sendBrowserList s env.now, true)
    else
      let commandParts := splitOnChar ' ' commandString.data
      let command : String := ⟨commandParts.headD []⟩
      if !commandTypeValues.contains command then (s, [], false)
      else
        let params := parseParams (commandParts.drop 1)
        match mapGet params "browser" with
        | some targetBrowser =>
          if jsTruthy targetBrowser then
            let params1 := mapDelete params "browser"
            let r := sendCommandToBrowser env s targetBrowser command params1
            (r.1, r.2, true)
          else
            let r := broadcastCommand env s command params
            (r.1, r.2, true)
        | none =>
          let r := broadcastCommand env s command params
          (r.1, r.2, true)

def resultOfJsonData (d : Json) : CommandResultPacket :=
  { accessCode := asStrOpt (jsonField d "accessCode"),
    commandId := asStrOpt (jsonField d "commandId"),
    success := jsonTruthy (jsonField d "success"),
    result := jsonField d "result",
    error := asStrOpt (jsonField d "error") }

/-- `CommandHandler.processExtensionMessage` (lines 31-55): raw `ping` gets
a raw `pong`; a JSON message of type `COMMAND_RESULT` goes to
`handleCommandResult`; anything else (parse failure included, and a
missing `data` member, whose destructuring throws into the surrounding
`try`) yields `false`. -/
def processExtensionMessage (ch : Nat) (s : GState)
    (message : String) : GState × List Act × Bool :=
  if message = "ping" then (s, [.sendText ch "pong"], true)
  else
    match jsonParse message with
    | none => (s, [], false)
    | some packet =>
      if asStrOpt (jsonField packet "type") = some "COMMAND_RESULT" then
        match jsonField packet "data" with
        | none => (s, [], false)
        | some d =>
          let r := handleCommandResult s (resultOfJsonData d)
          (r.1, r.2, true)
      else (s, [], false)

/-! ## PacketHandler

`PacketHandler.handlePacket` receives `JSON.parse(...) as AnyPacket`.  The
cast is unchecked, so at runtime the `data` member the handlers
destructure may be absent (or `null`): then `const { accessCode, ... } =
packet.data` throws a `TypeError` before the handler's `try`, and the
boundary `catch` of `handlePacket` throws again evaluating
`packet.data.accessCode` for its error reply, so the exception escapes
`handlePacket` (the connection handler's own `catch` then answers with
`INVALID_FORMAT`).  `handlePacket` is therefore `Except`-valued: `.error`
is the escaping `TypeError`, thrown before any state change or send.  A
present non-object `data` member does not throw — property access on a
primitive yields `undefined` — hence `PacketData` with optional fields. -/

/-- The fields of `packet.data` that the handlers destructure. -/
structure PacketData where
  accessCode : Option String
  userAgent : Option String
  timestamp : Option Json

structure InPacket where
  type : Option String
  data : Option PacketData

/-- Stand-in for the engine-defined `TypeError` text of reading a property
of `undefined` (or destructuring it); no proved property depends on the
wording. -/
def jsUndefinedAccessError : String :=
  "Cannot read properties of undefined"

/-- Destructuring `packet.data`: throws when the member is absent. -/
def destructureData : Option PacketData → Except String PacketData
  | none => .error jsUndefinedAccessError
  | some d => .ok d

/-- The member access `packet.data.accessCode`: throws when `data` is
absent. -/
def dataAccessCode : Option PacketData → Except String (Option String)
  | none => .error jsUndefinedAccessError
  | some d => .ok d.accessCode

/-- The JavaScript fallback `packet.data.accessCode || 'unknown'` (an empty
string is falsy). -/
def jsOrUnknown : Option String → String
  | none => "unknown"
  | some c => if c = "" then "unknown" else c

/-- Template-literal rendering of `packet.type` (absent prints as
`undefined`). -/
def typeShown : Option String → String
  | none => "undefined"
  | some t => t

/-- `PacketHandler.handleInitPacket` (lines 181-237): register the session,
then upsert the browser row; on a prisma failure the registration stays
and an `INIT_ERROR` reply is sent (the handler's own `catch`), otherwise a
success ack with the server time. -/
def handleInitPacket (env : Env) (ch : Nat) (s : GState)
    (accessCode userAgent : Option String) : GState × List Act :=
  let s1 := (registerSession s accessCode userAgent ch env.now).1
  match env.prismaFindBrowser accessCode with
  | .error e =>
    (s1, [.sendJson ch (.error accessCode "INIT_ERROR" e)])
  | .ok found =>
    let res := if found then env.prismaUpdateBrowser accessCode userAgent
      else env.prismaCreateBrowser accessCode userAgent
    match res with
    | .error e =>
      (s1, [.sendJson ch (.error accessCode "INIT_ERROR" e)])
    | .ok _ =>
      (s1, [.sendJson ch (.initOk accessCode env.now)])

/-- `PacketHandler.handleExitPacket` (lines 244-270): evict the session
(prisma failure inside `markSessionOffline` is swallowed there) and ack. -/
def handleExitPacket (env : Env) (ch : Nat) (s : GState)
    (accessCode : Option String) : GState × List Act :=
  let s1 := removeSession env s accessCode
  (s1, [.sendJson ch (.exitOk env.now)])

/-- `PacketHandler.handlePingPacket` (lines 277-294): touch the session
(the returned boolean is ignored) and always answer with a pong echoing
the client timestamp plus the server time. -/
def handlePingPacket (env : Env) (ch : Nat) (s : GState)
    (accessCode : Option String) (timestamp : Option Json) :
    GState × List Act :=
  let s1 := (updateSessionPing s accessCode env.now).1
  (s1, [.sendJson ch (.pong accessCode timestamp env.now)])

/-- The `switch` body of `handlePacket` (lines 145-165).  Each known kind
first destructures `packet.data` (the handler's first statement, before
its own `try`), which throws when the member is absent; the default branch
evaluates `packet.data.accessCode` for its error reply, which throws the
same way.  An `.error` carries the exception text; it is always thrown
before any state change or send. -/
def dispatchInner (env : Env) (ch : Nat) (s : GState) (packet : InPacket) :
    Except String (GState × List Act) :=
  if packet.type = some "INIT" then
    (destructureData packet.data).map
      (fun d => handleInitPacket env ch s d.accessCode d.userAgent)
  else if packet.type = some "EXIT" then
    (destructureData packet.data).map
      (fun d => handleExitPacket env ch s d.accessCode)
  else if packet.type = some "PING" then
    (destructureData packet.data).map
      (fun d => handlePingPacket env ch s d.accessCode d.timestamp)
  else
    (dataAccessCode packet.data).map
      (fun code => (s, [.sendJson ch (.error (some (jsOrUnknown code))
        "UNKNOWN_PACKET_TYPE"
        ("Unknown packet type: " ++ typeShown packet.type))]))

/-- `PacketHandler.handlePacket` (lines 141-174): the switch wrapped in the
boundary `try`/`catch`.  The catch evaluates `packet.data.accessCode ||
'unknown'` to build an `INTERNAL_ERROR` reply — and therefore itself
throws when `data` is absent, letting the exception escape `handlePacket`
(the `.error` result). -/
def handlePacket (env : Env) (ch : Nat) (s : GState) (packet : InPacket) :
    Except String (GState × List Act) :=
  match dispatchInner env ch s packet with
  | .ok r => .ok r
  | .error e =>
    match dataAccessCode packet.data with
    | .error e2 => .error e2
    | .ok code =>
      .ok (s, [.sendJson ch (.error (some (jsOrUnknown code))
        "INTERNAL_ERROR" e)])

/-- The view of `packet.data` the handlers get: absent or `null` throws on
destructuring (`none`); an object carries its fields; any other value
yields `undefined` for every property read. -/
def dataOfJson : Option Json → Option PacketData
  | none => none
  | some Json.null => none
  | some d =>
    some ⟨asStrOpt (jsonField d "accessCode"),
      asStrOpt (jsonField d "userAgent"), jsonField d "timestamp"⟩

/-- The fields of `JSON.parse(messageStr) as AnyPacket` that the packet
handler reads. -/
def packetOfJson (j : Json) : InPacket :=
  { type := asStrOpt (jsonField j "type"),
    data := dataOfJson (jsonField j "data") }

/-! ## WebSocketServer message pipeline -/

/-- Stand-in for the engine-defined `SyntaxError` text of a failed
`JSON.parse` (the exact wording is implementation defined in JavaScript;
no proved property depends on it). -/
def jsEngineParseErrorText (message : String) : String :=
  let _ := message
  "Unexpected token"

/-- The `ws.on('message')` handler of `WebSocketServer.setupEventHandlers`
(lines 46-85): raw ping, then the `main:` controller protocol, then
extension messages (command results), then the structured packet
protocol.  Its `try`/`catch` wraps both the `JSON.parse` and the `await
handlePacket`, so a message that parses nowhere and an exception escaping
`handlePacket` are both answered with an `INVALID_FORMAT` error for
`accessCode: 'system'` carrying the exception's text. -/
def onMessage (env : Env) (ch : Nat) (s : GState) (message : String) :
    GState × List Act :=
  if message = "ping" then (s, [.sendText ch "pong"])
  else
    let m := if jsStartsWith message "main:"
      then processMainAppCommand env s message
      else (s, [], false)
    if m.2.2 then (m.1, m.2.1)
    else
      let x := processExtensionMessage ch m.1 message
      if x.2.2 then (x.1, m.2.1 ++ x.2.1)
      else
        match jsonParse message with
        | some j =>
          match handlePacket env ch x.1 (packetOfJson j) with
          | .ok r => (r.1, m.2.1 ++ x.2.1 ++ r.2)
          | .error e =>
            (x.1, m.2.1 ++ x.2.1 ++
              [.sendJson ch (.error (some "system") "INVALID_FORMAT"
                ("Error processing message: " ++ e))])
        | none =>
          (x.1, m.2.1 ++ x.2.1 ++
            [.sendJson ch (.error (some "system") "INVALID_FORMAT"
              ("Error processing message: " ++ jsEngineParseErrorText message))])

/-! ## Reference-level model of `getAllSessions`

`SessionManager.getAllSessions` (lines 462-464) is `return
this.activeSessions;` — it hands the caller the live backing `Map`, not a
copy.  Reference aliasing is not observable in a pure value model, so this
fragment models the heap explicitly: map objects live at addresses, the
registry holds the address of its backing map, and `getAllSessions`
returns that address.  A caller mutating the returned object mutates the
same heap cell the registry reads. -/

structure HeapState where
  /-- Map objects by address. -/
  heap : List (List (Option String × BrowserSession))
  /-- Address of `this.activeSessions`. -/
  backing : Nat

def heapMapAt (h : HeapState) (addr : Nat) :
    List (Option String × BrowserSession) :=
  h.heap.getD addr []

/-- `getAllSessions()`: returns the live backing map (its address), not a
snapshot. -/
def getAllSessionsLive (h : HeapState) : Nat := h.backing

/-- `SessionManager.hasSession` (lines 454-456), reading through the
registry's own reference. -/
def hasSessionLive (h : HeapState) (accessCode : Option String) : Bool :=
  (mapGet (heapMapAt h h.backing) accessCode).isSome

/-- A caller invoking `Map.prototype.delete` on a map object it holds a
reference to. -/
def callerMapDelete (h : HeapState) (addr : Nat)
    (accessCode : Option String) : HeapState :=
  { h with heap := h.heap.set addr (mapDelete (heapMapAt h addr) accessCode) }

/-! ## Well-formedness invariant -/

/-- Well-formedness of a gateway state: registry keys are distinct, every
session's armed deadline handle and every pending command id predate the
respective freshness counters (`uuidOf n` has length `n`). -/
def WF (s : GState) : Prop :=
  (keys s.activeSessions).Nodup ∧
  (∀ e ∈ s.activeSessions, e.2.timeoutId < s.nextTimer) ∧
  (∀ p ∈ s.pendingCommands, p.1.data.length < s.nextCommandId)

instance (s : GState) : Decidable (WF s) := by
  unfold WF; infer_instance

theorem containsKey_eq_true_of_mapGet {κ ν : Type} [DecidableEq κ]
    (m : List (κ × ν)) (k : κ) (v : ν) (h : mapGet m k = some v) :
    containsKey m k = true := by
  rw [containsKey_iff_mem_keys]
  exact List.mem_map.mpr ⟨(k, v), mem_of_mapGet_eq_some m k v h, rfl⟩

theorem nodupKeys_registerSession (s : GState) (code ua : Option String)
    (ws now : Nat) (h : (keys s.activeSessions).Nodup) :
    (keys (registerSession s code ua ws now).1.activeSessions).Nodup := by
  simpa [registerSession] using nodupKeys_mapSet s.activeSessions code _ h

theorem nodupKeys_updateSessionPing (s : GState) (code : Option String)
    (now : Nat) (h : (keys s.activeSessions).Nodup) :
    (keys (updateSessionPing s code now).1.activeSessions).Nodup := by
  unfold updateSessionPing
  cases hg : mapGet s.activeSessions code with
  | none => simpa using h
  | some session => simpa using nodupKeys_mapSet s.activeSessions code _ h

theorem nodupKeys_removeSession (env : Env) (s : GState)
    (code : Option String) (h : (keys s.activeSessions).Nodup) :
    (keys (removeSession env s code).activeSessions).Nodup := by
  unfold removeSession markSessionOffline
  cases hg : mapGet s.activeSessions code with
  | none => simpa using nodupKeys_mapDelete s.activeSessions code h
  | some session =>
    simpa using nodupKeys_mapDelete _ code
      (nodupKeys_mapDelete s.activeSessions code h)

theorem nodupKeys_applySMOp (env : Env) (s : GState) (op : SMOp)
    (h : (keys s.activeSessions).Nodup) :
    (keys (applySMOp env s op).activeSessions).Nodup := by
  cases op with
  | register code ua ws now => exact nodupKeys_registerSession s code ua ws now h
  | touch code now => exact nodupKeys_updateSessionPing s code now h
  | evict code => exact nodupKeys_removeSession env s code h

theorem nodupKeys_runSMOps (env : Env) (ops : List SMOp) :
    (keys (runSMOps env ops).activeSessions).Nodup := by
  have hgen : ∀ (l : List SMOp) (s : GState),
      (keys s.activeSessions).Nodup →
      (keys (l.foldl (applySMOp env) s).activeSessions).Nodup := by
    intro l
    induction l with
    | nil => intro s hs; simpa using hs
    | cons op rest ih =>
      intro s hs
      exact ih (applySMOp env s op) (nodupKeys_applySMOp env s op hs)
  exact hgen ops initState (by simp [initState, keys])

/-- C1.  At most one `AgentSession` per access code ever exists: every state
reachable by register/touch/evict operations has pairwise-distinct registry
keys.  Registering an already-present access code always succeeds and never
adds an entry: the key multiset is unchanged, the stored session now
carries the new channel and fresh liveness state, the prior session's
armed liveness deadline is cancelled, and the replacement's fresh deadline
is armed. -/
theorem registry_at_most_one_session_per_code :
    (∀ (env : Env) (ops : List SMOp),
      (keys (runSMOps env ops).activeSessions).Nodup) ∧
    (∀ (s : GState) (code ua : Option String) (ws now : Nat)
      (old : BrowserSession), WF s →
      mapGet s.activeSessions code = some old →
      keys (registerSession s code ua ws now).1.activeSessions
          = keys s.activeSessions ∧
      mapGet (registerSession s code ua ws now).1.activeSessions code
          = some ⟨code, ua, now, ws, s.nextTimer⟩ ∧
      old.timeoutId ∉ (registerSession s code ua ws now).1.timers ∧
      s.nextTimer ∈ (registerSession s code ua ws now).1.timers) := by
  constructor
  · exact nodupKeys_runSMOps
  · intro s code ua ws now old hwf hget
    have hck : containsKey s.activeSessions code = true :=
      containsKey_eq_true_of_mapGet _ _ _ hget
    have hlt : old.timeoutId < s.nextTimer :=
      hwf.2.1 (code, old) (mem_of_mapGet_eq_some _ _ _ hget)
    refine ⟨?_, ?_, ?_, ?_⟩
    · simpa [registerSession] using
        keys_mapSet_present s.activeSessions code _ hck
    · simpa [registerSession] using
        mapGet_mapSet_self s.activeSessions code
          (⟨code, ua, now, ws, s.nextTimer⟩ : BrowserSession)
    · simp only [registerSession, hget, List.mem_append]
      rintro (hmem | hmem)
      · rcases List.mem_filter.mp hmem with ⟨-, hne⟩
        simp at hne
      · simp only [List.mem_singleton] at hmem
        exact absurd hmem (Nat.ne_of_lt hlt)
    · simp [registerSession, hget]

/-- Concrete registry state used by witnesses: one session `abc` on
channel 7 with armed deadline 0. -/
def sampleState : GState :=
  ⟨[(some "abc", ⟨some "abc", some "ua", 0, 7, 0⟩)], [0], 1, [], 0⟩

theorem registry_at_most_one_session_per_code_witness :
    (WF sampleState ∧
      mapGet sampleState.activeSessions (some "abc")
        = some ⟨some "abc", some "ua", 0, 7, 0⟩) ∧
    (keys (registerSession sampleState (some "abc") (some "ua2") 9 5).1.activeSessions
        = keys sampleState.activeSessions ∧
      mapGet (registerSession sampleState (some "abc") (some "ua2") 9 5).1.activeSessions
          (some "abc")
        = some ⟨some "abc", some "ua2", 5, 9, sampleState.nextTimer⟩ ∧
      (0 : Nat) ∉ (registerSession sampleState (some "abc") (some "ua2") 9 5).1.timers ∧
      sampleState.nextTimer
        ∈ (registerSession sampleState (some "abc") (some "ua2") 9 5).1.timers) :=
  ⟨⟨by decide, by decide⟩,
    registry_at_most_one_session_per_code.2 sampleState (some "abc")
      (some "ua2") 9 5 ⟨some "abc", some "ua", 0, 7, 0⟩ (by decide) (by decide)⟩

theorem mapGet_mapDelete_self {κ ν : Type} [DecidableEq κ]
    (m : List (κ × ν)) (k : κ) : mapGet (mapDelete m k) k = none := by
  induction m with
  | nil => rfl
  | cons e rest ih =>
    simp only [mapDelete, List.filter_cons]
    by_cases hk : e.1 = k
    · rw [if_neg (by simp [hk])]
      exact ih
    · rw [if_pos (by simp [hk])]
      simp only [mapGet, List.find?, decide_eq_false hk]
      exact ih

/-- C2.  Resolution of a pending command succeeds at most once and never
replies: `handleCommandResult` emits no message, touches no state besides
the pending-command table, is the identity when the id is not pending
(never tracked, already resolved, or already evicted by the expiry
callback `commandExpire`), removes exactly the matching entry when it is
pending, and afterwards the same id no longer resolves, so a repeated
result is a no-op. -/
theorem command_result_resolves_at_most_once
    (s : GState) (packet : CommandResultPacket) :
    (handleCommandResult s packet).2 = [] ∧
    (handleCommandResult s packet).1.activeSessions = s.activeSessions ∧
    (handleCommandResult s packet).1.timers = s.timers ∧
    (handleCommandResult s packet).1.nextTimer = s.nextTimer ∧
    (handleCommandResult s packet).1.nextCommandId = s.nextCommandId ∧
    (pendingLookup s.pendingCommands packet.commandId = none →
      handleCommandResult s packet = (s, [])) ∧
    (∀ cid pc, packet.commandId = some cid →
      mapGet s.pendingCommands cid = some pc →
      (handleCommandResult s packet).1.pendingCommands
        = mapDelete s.pendingCommands cid) ∧
    pendingLookup (handleCommandResult s packet).1.pendingCommands
      packet.commandId = none ∧
    handleCommandResult (handleCommandResult s packet).1 packet
      = ((handleCommandResult s packet).1, []) ∧
    (∀ cid, packet.commandId = some cid →
      handleCommandResult (commandExpire s cid) packet
        = (commandExpire s cid, [])) := by
  have hnolook : ∀ t : GState,
      pendingLookup t.pendingCommands packet.commandId = none →
      handleCommandResult t packet = (t, []) := by
    intro t ht
    unfold handleCommandResult
    rw [ht]
  have hlook : pendingLookup (handleCommandResult s packet).1.pendingCommands
      packet.commandId = none := by
    cases hcid : packet.commandId with
    | none => simp [pendingLookup]
    | some cid =>
      unfold handleCommandResult
      rw [hcid]
      simp only [pendingLookup]
      cases hl : mapGet s.pendingCommands cid with
      | none => simpa using hl
      | some pc =>
        simpa [pendingDelete] using mapGet_mapDelete_self s.pendingCommands cid
  refine ⟨?_, ?_, ?_, ?_, ?_, hnolook s, ?_, hlook,
    hnolook (handleCommandResult s packet).1 hlook, ?_⟩
  · unfold handleCommandResult
    cases pendingLookup s.pendingCommands packet.commandId <;> rfl
  · unfold handleCommandResult
    cases pendingLookup s.pendingCommands packet.commandId <;> rfl
  · unfold handleCommandResult
    cases pendingLookup s.pendingCommands packet.commandId <;> rfl
  · unfold handleCommandResult
    cases pendingLookup s.pendingCommands packet.commandId <;> rfl
  · unfold handleCommandResult
    cases pendingLookup s.pendingCommands packet.commandId <;> rfl
  · intro cid pc hcid hget
    unfold handleCommandResult
    simp [pendingLookup, pendingDelete, hcid, hget]
  · intro cid hcid
    refine hnolook (commandExpire s cid) ?_
    unfold commandExpire
    cases hg : mapGet s.pendingCommands cid with
    | none => simpa [pendingLookup, hcid] using hg
    | some pc =>
      simpa [pendingLookup, hcid] using
        mapGet_mapDelete_self s.pendingCommands cid

theorem command_result_resolves_at_most_once_witness :
    (pendingLookup sampleState.pendingCommands (some "zzz") = none) ∧
    handleCommandResult sampleState
      ⟨some "abc", some "zzz", true, none, none⟩ = (sampleState, []) :=
  ⟨by decide,
    (command_result_resolves_at_most_once sampleState
      ⟨some "abc", some "zzz", true, none, none⟩).2.2.2.2.2.1 (by decide)⟩

/-! ## Claim C3: `main:exit` fan-out -/

def sampleEnv : Env :=
  ⟨0, fun _ => .ok false, fun _ _ => .ok (), fun _ _ => .ok (),
    fun _ => .ok ()⟩

/-- C3 counterexample.  On a registry with one session, processing
`main:exit` changes the pending-command table (the fan-out send records a
`PendingCommand`), contradicting the claim that the table is left
unchanged. -/
theorem main_exit_pending_unchanged_cex :
    ¬ (processMainAppCommand sampleEnv sampleState "main:exit").1.pendingCommands
      = sampleState.pendingCommands := by decide

/-- The pending-command entries created by an exit broadcast over the given
registry entries, ids starting at `n`. -/
def exitPendings (n now : Nat) :
    List (Option String × BrowserSession) → List (String × PendingCommand)
  | [] => []
  | e :: rest => (uuidOf n, ⟨jsValOfKey e.1, now⟩) :: exitPendings (n + 1) now rest

/-- The command packets sent by an exit broadcast over the given registry
entries, ids starting at `n`. -/
def exitSends (n now : Nat) :
    List (Option String × BrowserSession) → List Act
  | [] => []
  | e :: rest =>
    .sendJson e.2.ws (.command (jsValOfKey e.1) (uuidOf n) "exit" [] now)
      :: exitSends (n + 1) now rest

theorem jsValOfKey_inj {a b : Option String}
    (h : jsValOfKey a = jsValOfKey b) : a = b := by
  cases a <;> cases b <;> simp_all [jsValOfKey]

theorem getSessionByVal_of_mem (m : List (Option String × BrowserSession))
    (hn : (keys m).Nodup) (e : Option String × BrowserSession) (he : e ∈ m) :
    getSessionByVal m (jsValOfKey e.1) = some e.2 := by
  induction m with
  | nil => cases he
  | cons f rest ih =>
    simp only [keys, List.map_cons, List.nodup_cons] at hn
    cases he with
    | head => simp [getSessionByVal, List.find?]
    | tail _ hmem =>
      have hk : f.1 ≠ e.1 := by
        intro hfe
        exact hn.1 (hfe ▸ (List.mem_map.mpr ⟨e, hmem, rfl⟩))
      have hne : jsValOfKey f.1 ≠ jsValOfKey e.1 :=
        fun hc => hk (jsValOfKey_inj hc)
      simp only [getSessionByVal, List.find?, decide_eq_false hne]
      exact ih hn.2 hmem

theorem uuidOf_data_length (n : Nat) : (uuidOf n).data.length = n := by
  simp [uuidOf]

theorem containsKey_uuid_fresh (m : List (String × PendingCommand)) (n : Nat)
    (h : ∀ p ∈ m, p.1.data.length < n) :
    containsKey m (uuidOf n) = false := by
  rw [Bool.eq_false_iff]
  intro hc
  rw [containsKey_iff_mem_keys] at hc
  rcases List.mem_map.mp hc with ⟨p, hp, hkey⟩
  have := h p hp
  rw [hkey, uuidOf_data_length] at this
  exact lt_irrefl n this

theorem mapSet_append_of_fresh {κ ν : Type} [DecidableEq κ]
    (m : List (κ × ν)) (k : κ) (v : ν) (h : containsKey m k = false) :
    mapSet m k v = m ++ [(k, v)] := by
  simp [mapSet, h]

theorem sendCommandToBrowser_activeSessions (env : Env) (s : GState)
    (v : JsVal) (c : String) (p : List (String × JsVal)) :
    (sendCommandToBrowser env s v c p).1.activeSessions = s.activeSessions := by
  unfold sendCommandToBrowser
  cases getSessionByVal s.activeSessions v <;> rfl

theorem broadcastFold_exit_spec (env : Env) :
    ∀ (entries : List (Option String × BrowserSession)) (s : GState)
      (acts : List Act),
    (∀ e ∈ entries,
      getSessionByVal s.activeSessions (jsValOfKey e.1) = some e.2) →
    (∀ p ∈ s.pendingCommands, p.1.data.length < s.nextCommandId) →
    entries.foldl
      (fun acc e =>
        let r := sendCommandToBrowser env acc.1 (jsValOfKey e.1) "exit" []
        (r.1, acc.2 ++ r.2)) (s, acts)
    = ({ s with
          pendingCommands := s.pendingCommands
            ++ exitPendings s.nextCommandId env.now entries,
          nextCommandId := s.nextCommandId + entries.length },
       acts ++ exitSends s.nextCommandId env.now entries) := by
  intro entries
  induction entries with
  | nil =>
    intro s acts _ _
    simp [exitPendings, exitSends]
  | cons e rest ih =>
    intro s acts hlook hbound
    have hhead := hlook e (List.mem_cons_self e rest)
    have hfresh : containsKey s.pendingCommands (uuidOf s.nextCommandId) = false :=
      containsKey_uuid_fresh s.pendingCommands s.nextCommandId hbound
    simp only [List.foldl_cons]
    have hstep : sendCommandToBrowser env s (jsValOfKey e.1) "exit" []
        = ({ s with
              pendingCommands := s.pendingCommands
                ++ [(uuidOf s.nextCommandId, ⟨jsValOfKey e.1, env.now⟩)],
              nextCommandId := s.nextCommandId + 1 },
           [.sendJson e.2.ws
              (.command (jsValOfKey e.1) (uuidOf s.nextCommandId) "exit" []
                env.now)]) := by
      unfold sendCommandToBrowser
      rw [hhead]
      simp only [mapSet_append_of_fresh s.pendingCommands
        (uuidOf s.nextCommandId) _ hfresh]
    rw [hstep]
    have hih := ih
      ({ s with
          pendingCommands := s.pendingCommands
            ++ [(uuidOf s.nextCommandId, ⟨jsValOfKey e.1, env.now⟩)],
          nextCommandId := s.nextCommandId + 1 })
      (acts ++ [.sendJson e.2.ws
        (.command (jsValOfKey e.1) (uuidOf s.nextCommandId) "exit" [] env.now)])
      (by
        intro f hf
        exact hlook f (List.mem_cons_of_mem e hf))
      (by
        intro p hp
        rcases List.mem_append.mp hp with hmem | hmem
        · exact Nat.lt_succ_of_lt (hbound p hmem)
        · simp only [List.mem_singleton] at hmem
          rw [hmem, uuidOf_data_length]
          exact Nat.lt_succ_self _)
    rw [hih]
    simp only [exitPendings, exitSends]
    rw [List.append_assoc, List.append_assoc]
    have harith : s.nextCommandId + 1 + rest.length
        = s.nextCommandId + (rest.length + 1) := by omega
    simp [harith, List.length_cons]

/-- C3 amended.  Processing `main:exit` sends a termination (`exit`)
command to every currently registered session, on that session's channel
and in registry order — but, contrary to the original claim, each fan-out
send does create a `PendingCommand` entry: the pending-command table is
extended by exactly one fresh-id entry per registered session. -/
theorem main_exit_broadcasts_and_tracks (env : Env) (s : GState)
    (h : WF s) :
    processMainAppCommand env s "main:exit"
      = ({ s with
            pendingCommands := s.pendingCommands
              ++ exitPendings s.nextCommandId env.now s.activeSessions,
            nextCommandId := s.nextCommandId + s.activeSessions.length },
         exitSends s.nextCommandId env.now s.activeSessions, true) := by
  unfold processMainAppCommand
  rw [if_neg (by decide)]
  rw [if_pos (by decide)]
  unfold broadcastExitCommand broadcastFold
  rw [broadcastFold_exit_spec env s.activeSessions s []
    (fun e he => getSessionByVal_of_mem s.activeSessions h.1 e he) h.2.2]
  simp

theorem main_exit_broadcasts_and_tracks_witness :
    WF sampleState ∧
    processMainAppCommand sampleEnv sampleState "main:exit"
      = ({ sampleState with
            pendingCommands := sampleState.pendingCommands
              ++ exitPendings sampleState.nextCommandId sampleEnv.now
                  sampleState.activeSessions,
            nextCommandId := sampleState.nextCommandId
              + sampleState.activeSessions.length },
         exitSends sampleState.nextCommandId sampleEnv.now
           sampleState.activeSessions, true) :=
  ⟨by decide, main_exit_broadcasts_and_tracks sampleEnv sampleState (by decide)⟩

/-! ## Claims C4 and C10: parameter-token parsing -/

theorem paramStep_no_eq (acc : List (String × JsVal)) (t : List Char)
    (h : '=' ∉ t) : paramStep acc t = acc := by
  unfold paramStep
  rw [splitOnChar_of_not_mem '=' t h]
  rfl

theorem parseParams_skip {pre post : List (List Char)} {t : List Char}
    (hstep : ∀ acc, paramStep acc t = acc) :
    parseParams (pre ++ t :: post) = parseParams (pre ++ post) := by
  unfold parseParams
  rw [List.foldl_append, List.foldl_append, List.foldl_cons,
    hstep (List.foldl paramStep [] pre)]

/-- C4.  Parameter value coercion happens in the order boolean literal,
then numeric, then string — so `text=true` yields the boolean `true`, a
numeric-looking value that is not a boolean literal yields a number, and
everything else stays a string — while a token containing no `=` is
skipped without affecting the parse of the other tokens. -/
theorem param_value_coercion_order :
    coerceValue "true" = .bool true ∧
    coerceValue "false" = .bool false ∧
    (∀ v : String, v ≠ "true" → v ≠ "false" → jsIsNumeric v = true →
      coerceValue v = .num v) ∧
    (∀ v : String, v ≠ "true" → v ≠ "false" → jsIsNumeric v = false →
      coerceValue v = .str v) ∧
    (∀ (pre post : List (List Char)) (t : List Char), '=' ∉ t →
      parseParams (pre ++ t :: post) = parseParams (pre ++ post)) ∧
    parseParams ["text=true".data] = [("text", JsVal.bool true)] := by
  refine ⟨rfl, rfl, ?_, ?_, ?_, by decide⟩
  · intro v h1 h2 h3
    simp [coerceValue, h1, h2, h3]
  · intro v h1 h2 h3
    simp [coerceValue, h1, h2, h3]
  · intro pre post t ht
    exact parseParams_skip (fun acc => paramStep_no_eq acc t ht)

theorem param_value_coercion_order_witness :
    (("42" : String) ≠ "true" ∧ ("42" : String) ≠ "false" ∧
      jsIsNumeric "42" = true ∧ ('=' ∉ "noeq".data)) ∧
    (coerceValue "42" = .num "42" ∧
      parseParams (["a=1".data] ++ "noeq".data :: ["b=2".data])
        = parseParams (["a=1".data] ++ ["b=2".data])) :=
  ⟨⟨by decide, by decide, by decide, by decide⟩,
    ⟨param_value_coercion_order.2.2.1 "42" (by decide) (by decide) (by decide),
      param_value_coercion_order.2.2.2.2.1 ["a=1".data] ["b=2".data]
        "noeq".data (by decide)⟩⟩

theorem splitOnChar_append_sep (sep : Char) (k v : List Char)
    (hk : sep ∉ k) (hv : sep ∉ v) :
    splitOnChar sep (k ++ sep :: v) = [k, v] := by
  induction k with
  | nil =>
    simp only [List.nil_append, splitOnChar, if_pos rfl]
    rw [splitOnChar_of_not_mem sep v hv]
    simp
  | cons c k' ih =>
    simp only [List.mem_cons, not_or] at hk
    simp only [List.cons_append, splitOnChar]
    rw [if_neg (fun hc => hk.1 hc.symm)]
    simp only [List.append_eq]
    rw [ih hk.2]

/-- C10.  A token whose value part after the first `=` is empty (`url=`) is
skipped exactly like a token with no `=` at all; a token with several `=`
behaves exactly like the two-piece token made of its first two pieces, so
only the text between the first and the second `=` becomes the value and
the rest is discarded. -/
theorem param_token_edge_cases :
    (∀ (acc : List (String × JsVal)) (t k : List Char)
      (rps : List (List Char)),
      splitOnChar '=' t = k :: [] :: rps → paramStep acc t = acc) ∧
    (∀ (pre post : List (List Char)) (t k : List Char)
      (rps : List (List Char)),
      splitOnChar '=' t = k :: [] :: rps →
      parseParams (pre ++ t :: post) = parseParams (pre ++ post)) ∧
    (∀ (acc : List (String × JsVal)) (t k v : List Char)
      (rps : List (List Char)),
      splitOnChar '=' t = k :: v :: rps →
      paramStep acc t = paramStep acc (k ++ '=' :: v)) ∧
    parseParams ["url=".data] = [] ∧
    parseParams ["k=a=b".data] = [("k", JsVal.str "a")] := by
  have hstep : ∀ (acc : List (String × JsVal)) (t k : List Char)
      (rps : List (List Char)),
      splitOnChar '=' t = k :: [] :: rps → paramStep acc t = acc := by
    intro acc t k rps hsplit
    unfold paramStep
    rw [hsplit]
    simp
  refine ⟨hstep, ?_, ?_, by decide, by decide⟩
  · intro pre post t k rps hsplit
    exact parseParams_skip (fun acc => hstep acc t k rps hsplit)
  · intro acc t k v rps hsplit
    have hk : '=' ∉ k :=
      not_mem_of_mem_splitOnChar '=' t k (hsplit ▸ List.mem_cons_self k _)
    have hv : '=' ∉ v :=
      not_mem_of_mem_splitOnChar '=' t v
        (hsplit ▸ List.mem_cons_of_mem k (List.mem_cons_self v _))
    unfold paramStep
    rw [hsplit, splitOnChar_append_sep '=' k v hk hv]
    simp

theorem param_token_edge_cases_witness :
    (splitOnChar '=' "url=".data = "url".data :: [] :: [] ∧
      splitOnChar '=' "k=a=b".data = "k".data :: "a".data :: ["b".data]) ∧
    (paramStep [] "url=".data = [] ∧
      paramStep [] "k=a=b".data = paramStep [] ("k".data ++ '=' :: "a".data)) :=
  ⟨⟨by decide, by decide⟩,
    ⟨param_token_edge_cases.1 [] "url=".data "url".data [] (by decide),
      param_token_edge_cases.2.2.1 [] "k=a=b".data "k".data "a".data
        ["b".data] (by decide)⟩⟩

/-! ## Claim C5: routing failure for unknown target -/

/-- C5.  Dispatching a command whose target access code has no session in
the registry is a pure routing failure: no message is sent on any channel
and the state, the pending-command table included, is unchanged. -/
theorem unknown_target_routing_failure (env : Env) (s : GState)
    (code : String) (command : String) (params : List (String × JsVal))
    (h : getSessionByVal s.activeSessions (.str code) = none) :
    sendCommandToBrowser env s (.str code) command params = (s, []) := by
  unfold sendCommandToBrowser
  rw [h]

theorem unknown_target_routing_failure_witness :
    getSessionByVal sampleState.activeSessions (.str "nope") = none ∧
    sendCommandToBrowser sampleEnv sampleState (.str "nope") "goto"
      [("url", .str "x")] = (sampleState, []) :=
  ⟨by decide,
    unknown_target_routing_failure sampleEnv sampleState "nope" "goto"
      [("url", .str "x")] (by decide)⟩

/-! ## Claim C6: exception containment at the packet-dispatch boundary -/

theorem handleInitPacket_noClose (env : Env) (ch : Nat) (s : GState)
    (a u : Option String) :
    ((handleInitPacket env ch s a u).2.all (fun x => !x.isClose)) = true := by
  unfold handleInitPacket
  cases env.prismaFindBrowser a with
  | error e => simp [Act.isClose]
  | ok found =>
    cases hres : (if found then env.prismaUpdateBrowser a u
      else env.prismaCreateBrowser a u) with
    | error e => simp [hres, Act.isClose]
    | ok r => simp [hres, Act.isClose]

/-- C6 counterexample.  A structured message of an unrecognized kind that
carries no `data` member (`JSON.parse` succeeds on the concrete text
below): handling it throws — `handlePacket` returns `.error`, because the
boundary catch itself throws reading `packet.data.accessCode` — so the
exception is not caught at the packet-dispatch boundary and, contrary to
the claim, the reply the sender gets (from the connection handler's outer
catch) is `INVALID_FORMAT` for `accessCode: 'system'`: it neither carries
`'unknown'` nor names the unrecognized kind `BOGUS`. -/
theorem packet_no_data_escapes_boundary_cex :
    handlePacket sampleEnv 3 sampleState ⟨some "BOGUS", none⟩
      = .error jsUndefinedAccessError ∧
    onMessage sampleEnv 3 sampleState "\x7b\"type\":\"BOGUS\"\x7d"
      = (sampleState, [.sendJson 3 (.error (some "system") "INVALID_FORMAT"
          ("Error processing message: " ++ jsUndefinedAccessError))]) :=
  ⟨rfl, rfl⟩

/-- C6 amended.  For every structured message that carries a `data` member,
handling returns normally — never emitting a close — and an unrecognized
kind is answered (with unchanged state) by a structured error reply naming
that kind and carrying the access code or `unknown` when the data carries
none.  A structured message without a `data` member instead throws a
`TypeError` that escapes the packet-dispatch boundary (the boundary catch
throws again on `packet.data.accessCode`), before any state change or
send; the connection handler's own catch then answers it on the same
connection with an `INVALID_FORMAT` error for `accessCode: 'system'`
carrying the exception text — so the message still gets a structured
error reply and still never terminates the connection, but not from the
packet boundary and not with the claimed access code. -/
theorem packet_errors_boundary_behavior :
    (∀ (env : Env) (ch : Nat) (s : GState) (p : InPacket) (d : PacketData),
      p.data = some d →
      (∃ s1 acts, handlePacket env ch s p = .ok (s1, acts) ∧
        acts.all (fun x => !x.isClose) = true) ∧
      (p.type ≠ some "INIT" → p.type ≠ some "EXIT" → p.type ≠ some "PING" →
        handlePacket env ch s p
          = .ok (s, [.sendJson ch (.error (some (jsOrUnknown d.accessCode))
              "UNKNOWN_PACKET_TYPE"
              ("Unknown packet type: " ++ typeShown p.type))]))) ∧
    (∀ (env : Env) (ch : Nat) (s : GState) (p : InPacket),
      p.data = none →
      handlePacket env ch s p = .error jsUndefinedAccessError) ∧
    (∀ (env : Env) (ch : Nat) (s : GState) (message : String) (j : Json),
      message ≠ "ping" →
      jsStartsWith message "main:" = false →
      jsonParse message = some j →
      asStrOpt (jsonField j "type") ≠ some "COMMAND_RESULT" →
      (packetOfJson j).data = none →
      onMessage env ch s message
        = (s, [.sendJson ch (.error (some "system") "INVALID_FORMAT"
            ("Error processing message: " ++ jsUndefinedAccessError))])) := by
  have hnodata : ∀ (env : Env) (ch : Nat) (s : GState) (p : InPacket),
      p.data = none →
      handlePacket env ch s p = .error jsUndefinedAccessError := by
    intro env ch s p hd
    unfold handlePacket dispatchInner
    rw [hd]
    split_ifs <;> simp [destructureData, dataAccessCode, Except.map]
  refine ⟨?_, hnodata, ?_⟩
  · intro env ch s p d hd
    constructor
    · unfold handlePacket dispatchInner
      rw [hd]
      by_cases h1 : p.type = some "INIT"
      · rw [if_pos h1]
        exact ⟨_, _, rfl,
          handleInitPacket_noClose env ch s d.accessCode d.userAgent⟩
      · rw [if_neg h1]
        by_cases h2 : p.type = some "EXIT"
        · rw [if_pos h2]
          exact ⟨_, _, rfl, rfl⟩
        · rw [if_neg h2]
          by_cases h3 : p.type = some "PING"
          · rw [if_pos h3]
            exact ⟨_, _, rfl, rfl⟩
          · rw [if_neg h3]
            exact ⟨_, _, rfl, rfl⟩
    · intro h1 h2 h3
      unfold handlePacket dispatchInner
      rw [hd, if_neg h1, if_neg h2, if_neg h3]
      rfl
  · intro env ch s message j hping hsw hjson htype hdata
    have hext : processExtensionMessage ch s message = (s, [], false) := by
      unfold processExtensionMessage
      rw [if_neg hping, hjson]
      simp [htype]
    have hpk : handlePacket env ch s (packetOfJson j)
        = .error jsUndefinedAccessError :=
      hnodata env ch s (packetOfJson j) hdata
    unfold onMessage
    rw [if_neg hping]
    simp only [hsw, Bool.false_eq_true, if_false]
    simp [hext, hjson, hpk]

theorem packet_errors_boundary_behavior_witness :
    (handlePacket sampleEnv 3 sampleState
        ⟨some "BOGUS", some ⟨some "", none, none⟩⟩
      = .ok (sampleState, [.sendJson 3 (.error (some "unknown")
          "UNKNOWN_PACKET_TYPE" "Unknown packet type: BOGUS")])) ∧
    handlePacket sampleEnv 3 sampleState ⟨some "PING", none⟩
      = .error jsUndefinedAccessError :=
  ⟨(packet_errors_boundary_behavior.1 sampleEnv 3 sampleState
      ⟨some "BOGUS", some ⟨some "", none, none⟩⟩ ⟨some "", none, none⟩ rfl).2
        (by decide) (by decide) (by decide),
    packet_errors_boundary_behavior.2.1 sampleEnv 3 sampleState
      ⟨some "PING", none⟩ rfl⟩

/-! ## Claim C9: ping for an unknown access code still gets its pong -/

/-- C9.  A structured `PING` whose access code has no session in the
registry is still answered: the touch fails (returns `false`, mutating
nothing), and the `PONG` echoing the client timestamp together with the
server time is sent regardless. -/
theorem ping_replies_even_for_unknown_code (env : Env) (ch : Nat)
    (s : GState) (code : Option String) (ts : Option Json)
    (h : mapGet s.activeSessions code = none) :
    updateSessionPing s code env.now = (s, false) ∧
    handlePingPacket env ch s code ts
      = (s, [.sendJson ch (.pong code ts env.now)]) := by
  have htouch : updateSessionPing s code env.now = (s, false) := by
    unfold updateSessionPing
    rw [h]
  refine ⟨htouch, ?_⟩
  unfold handlePingPacket
  rw [htouch]

theorem ping_replies_even_for_unknown_code_witness :
    mapGet sampleState.activeSessions (some "zzz") = none ∧
    handlePingPacket sampleEnv 4 sampleState (some "zzz") none
      = (sampleState, [.sendJson 4 (.pong (some "zzz") none sampleEnv.now)]) :=
  ⟨by decide,
    (ping_replies_even_for_unknown_code sampleEnv 4 sampleState (some "zzz")
      none (by decide)).2⟩

/-! ## Claim C7: `getAllSessions` exposes the live backing map -/

/-- C7 refutation evidence.  `getAllSessions` returns the registry's live
backing map object; a caller deleting a key through the returned reference
deletes it from the registry itself, so the returned value is not a
point-in-time snapshot. -/
theorem getAllSessions_returns_live_backing (h : HeapState)
    (code : Option String) (sess : BrowserSession)
    (hmem : mapGet (heapMapAt h h.backing) code = some sess)
    (haddr : h.backing < h.heap.length) :
    hasSessionLive h code = true ∧
    hasSessionLive (callerMapDelete h (getAllSessionsLive h) code) code
      = false := by
  constructor
  · simp [hasSessionLive, hmem]
  · unfold hasSessionLive callerMapDelete getAllSessionsLive heapMapAt
    simp only [List.getD_eq_getElem?_getD]
    rw [List.getElem?_set_self haddr]
    simp [mapGet_mapDelete_self]

def sampleHeap : HeapState :=
  ⟨[[(some "abc", ⟨some "abc", some "ua", 0, 7, 0⟩)]], 0⟩

theorem getAllSessions_returns_live_backing_witness :
    (mapGet (heapMapAt sampleHeap sampleHeap.backing) (some "abc")
        = some ⟨some "abc", some "ua", 0, 7, 0⟩ ∧
      sampleHeap.backing < sampleHeap.heap.length) ∧
    (hasSessionLive sampleHeap (some "abc") = true ∧
      hasSessionLive
        (callerMapDelete sampleHeap (getAllSessionsLive sampleHeap)
          (some "abc")) (some "abc") = false) :=
  ⟨⟨by decide, by decide⟩,
    getAllSessions_returns_live_backing sampleHeap (some "abc")
      ⟨some "abc", some "ua", 0, 7, 0⟩ (by decide) (by decide)⟩

/-! ## Claim C8: unknown controller command names -/

theorem string_head_ne (a : Char) (l : List Char) (lit : String)
    (hne : lit.data.head? ≠ some a) : (⟨a :: l⟩ : String) ≠ lit :=
  fun he => hne (he ▸ rfl)

/-- `processMainAppCommand` on a `main:`-prefixed command whose name is not
a recognized command: not processed, no effect, nothing sent. -/
theorem processMainAppCommand_unknown_command (env : Env) (s : GState)
    (cs : List Char)
    (hexit : (⟨cs⟩ : String) ≠ "exit")
    (hlist : (⟨cs⟩ : String) ≠ "listBrowsers")
    (hcmd : (⟨(splitOnChar ' ' cs).headD []⟩ : String) ∉ commandTypeValues) :
    processMainAppCommand env s ⟨'m' :: 'a' :: 'i' :: 'n' :: ':' :: cs⟩
      = (s, [], false) := by
  have hred : processMainAppCommand env s ⟨'m' :: 'a' :: 'i' :: 'n' :: ':' :: cs⟩
      = (if (⟨cs⟩ : String) = "exit" then
          let r := broadcastExitCommand env s
          (r.1, r.2, true)
        else if (⟨cs⟩ : String) = "listBrowsers" then
          (s, sendBrowserList s env.now, true)
        else
          let commandParts := splitOnChar ' ' cs
          let command : String := ⟨commandParts.headD []⟩
          if !commandTypeValues.contains command then (s, [], false)
          else
            let params := parseParams (commandParts.drop 1)
            match mapGet params "browser" with
            | some targetBrowser =>
              if jsTruthy targetBrowser then
                let params1 := mapDelete params "browser"
                let r := sendCommandToBrowser env s targetBrowser command params1
                (r.1, r.2, true)
              else
                let r := broadcastCommand env s command params
                (r.1, r.2, true)
            | none =>
              let r := broadcastCommand env s command params
              (r.1, r.2, true)) := rfl
  rw [hred, if_neg hexit, if_neg hlist]
  simp only [List.headD_eq_head?_getD] at hcmd
  simp [hcmd]

theorem processExtensionMessage_main (ch : Nat) (s : GState)
    (cs : List Char) :
    processExtensionMessage ch s ⟨'m' :: 'a' :: 'i' :: 'n' :: ':' :: cs⟩
      = (s, [], false) := by
  unfold processExtensionMessage
  rw [if_neg (string_head_ne 'm' _ "ping" (by decide))]
  rw [jsonParse_main]

/-- C8.  A controller command `main:<name> …` whose first token is not a
recognized command name is rejected without effect — no command is
dispatched to any agent and no `PendingCommand` is created — and the
sender is answered with a structured error reply (the message falls
through the controller parser and fails `JSON.parse` at the dispatch
boundary, which reports `INVALID_FORMAT`). -/
theorem unknown_command_rejected_with_error (env : Env) (ch : Nat)
    (s : GState) (cs : List Char)
    (hexit : (⟨cs⟩ : String) ≠ "exit")
    (hlist : (⟨cs⟩ : String) ≠ "listBrowsers")
    (hcmd : (⟨(splitOnChar ' ' cs).headD []⟩ : String) ∉ commandTypeValues) :
    onMessage env ch s ⟨'m' :: 'a' :: 'i' :: 'n' :: ':' :: cs⟩
      = (s, [.sendJson ch (.error (some "system") "INVALID_FORMAT"
          ("Error processing message: "
            ++ jsEngineParseErrorText ⟨'m' :: 'a' :: 'i' :: 'n' :: ':' :: cs⟩))]) := by
  unfold onMessage
  rw [if_neg (string_head_ne 'm' _ "ping" (by decide))]
  have hsw : jsStartsWith ⟨'m' :: 'a' :: 'i' :: 'n' :: ':' :: cs⟩ "main:" = true := rfl
  rw [if_pos hsw]
  rw [processMainAppCommand_unknown_command env s cs hexit hlist hcmd]
  simp [processExtensionMessage_main, jsonParse_main]

theorem unknown_command_rejected_with_error_witness :
    ((⟨"bogus x=1".data⟩ : String) ≠ "exit" ∧
      (⟨"bogus x=1".data⟩ : String) ≠ "listBrowsers" ∧
      (⟨(splitOnChar ' ' "bogus x=1".data).headD []⟩ : String)
        ∉ commandTypeValues) ∧
    onMessage sampleEnv 5 sampleState
      ⟨'m' :: 'a' :: 'i' :: 'n' :: ':' :: "bogus x=1".data⟩
      = (sampleState, [.sendJson 5 (.error (some "system") "INVALID_FORMAT"
          ("Error processing message: " ++ jsEngineParseErrorText
            ⟨'m' :: 'a' :: 'i' :: 'n' :: ':' :: "bogus x=1".data⟩))]) :=
  ⟨⟨by decide, by decide, by decide⟩,
    unknown_command_rejected_with_error sampleEnv 5 sampleState
      "bogus x=1".data (by decide) (by decide) (by decide)⟩

end Lamela
